import Mathlib

/-!
Shallow embedding of `wifi_survey_heatmap/heatmap.py` (class `HeatMapGenerator`).

Numbers (Python floats and ints) are modelled as `ℚ`.  Python exceptions are
modelled with `Except`.  The `defaultdict(list)` accumulator of `generate` is
modelled as a structure with one list per key, together with a flag recording
whether the metric keys are present in the dict (they are created lazily, only
when the first measurement row is processed).
-/

namespace WifiSurvey

/-- One entry of `row['result']['iwscan']`: a scanned network with its SSID,
center frequency (Hz) and quality score. -/
structure ScanObservation where
  essid : String
  frequency : ℚ
  quality : ℚ
deriving DecidableEq

/-- One measurement record of the survey JSON: pixel coordinates plus the
scalar metrics extracted by `generate` (lines 150-160) and the scan list. -/
structure MeasurementPoint where
  x : ℚ
  y : ℚ
  rssi : ℚ
  quality : ℚ
  tcp_upload_Mbps : ℚ
  tcp_download_Mbps : ℚ
  udp_Mbps : ℚ
  jitter : ℚ
  iwscan : List ScanObservation
deriving DecidableEq

/-- The six metric keys of the aggregation dict (besides `x` and `y`). -/
inductive Metric
  | rssi
  | quality
  | tcp_upload_Mbps
  | tcp_download_Mbps
  | udp_Mbps
  | jitter
deriving DecidableEq

/-- The metric value stored in a measurement record. -/
def MeasurementPoint.metric (p : MeasurementPoint) : Metric → ℚ
  | .rssi => p.rssi
  | .quality => p.quality
  | .tcp_upload_Mbps => p.tcp_upload_Mbps
  | .tcp_download_Mbps => p.tcp_download_Mbps
  | .udp_Mbps => p.udp_Mbps
  | .jitter => p.jitter

/-- `self._image_width = len(self._layout[0])`: number of pixel columns of the
first row of the loaded image. -/
def image_width (layout : List (List ℚ)) : ℕ := (layout.headD []).length

/-- `self._image_height = len(self._layout) - 1`: number of pixel rows of the
loaded image, minus one. -/
def image_height (layout : List (List ℚ)) : ℕ := layout.length - 1

/-- The `defaultdict(list)` accumulator `a` of `generate`, one list per key. -/
structure Agg where
  x : List ℚ
  y : List ℚ
  rssi : List ℚ
  quality : List ℚ
  tcp_upload_Mbps : List ℚ
  tcp_download_Mbps : List ℚ
  udp_Mbps : List ℚ
  jitter : List ℚ
deriving DecidableEq

/-- The metric-keyed lists of the accumulator. -/
def Agg.metric (a : Agg) : Metric → List ℚ
  | .rssi => a.rssi
  | .quality => a.quality
  | .tcp_upload_Mbps => a.tcp_upload_Mbps
  | .tcp_download_Mbps => a.tcp_download_Mbps
  | .udp_Mbps => a.udp_Mbps
  | .jitter => a.jitter

/-- First loop of `generate` (lines 150-160): one append per key per row. -/
def collect (data : List MeasurementPoint) : Agg :=
  { x := data.map (·.x)
    y := data.map (·.y)
    rssi := data.map (·.rssi)
    quality := data.map (·.quality)
    tcp_upload_Mbps := data.map (·.tcp_upload_Mbps)
    tcp_download_Mbps := data.map (·.tcp_download_Mbps)
    udp_Mbps := data.map (·.udp_Mbps)
    jitter := data.map (·.jitter) }

/-- Raised when Python's `min` is applied to an empty sequence. -/
inductive DataError
  | emptySequence
deriving DecidableEq

/-- Python's `min` over a list of numbers: the fold of binary `min` over the
elements, starting from the first; `none` models the `ValueError` on an empty
sequence. -/
def listMin : List ℚ → Option ℚ
  | [] => none
  | h :: t => some (t.foldl min h)

/-- Python's `max` over a list of numbers. -/
def listMax : List ℚ → Option ℚ
  | [] => none
  | h :: t => some (t.foldl max h)

/-- `min(a[k])` as the fallible call made by `generate` line 170. -/
def pyMin (l : List ℚ) : Except DataError ℚ :=
  match listMin l with
  | some m => .ok m
  | none => .error .emptySequence

/-- `a[k].append(min(a[k]))` for one metric list. -/
def appendMin (l : List ℚ) : Except DataError (List ℚ) :=
  (pyMin l).map (fun m => l ++ [m])

/-- The body of `for k in a.keys(): ... a[k].append(min(a[k]))` when the six
metric keys are present in the dict (key iteration order: insertion order). -/
def padMetrics (a : Agg) : Except DataError Agg := do
  let r ← appendMin a.rssi
  let q ← appendMin a.quality
  let tu ← appendMin a.tcp_upload_Mbps
  let td ← appendMin a.tcp_download_Mbps
  let u ← appendMin a.udp_Mbps
  let j ← appendMin a.jitter
  pure { a with rssi := r, quality := q, tcp_upload_Mbps := tu,
                tcp_download_Mbps := td, udp_Mbps := u, jitter := j }

/-- One iteration of the corner-padding loop (lines 161-170): append the
corner coordinates to `x` and `y`, then append the running minimum to every
metric list that exists in the dict.  `keysPresent` records whether the metric
keys were ever created (they are, exactly when the dataset is non-empty). -/
def padCorner (keysPresent : Bool) (a : Agg) (c : ℚ × ℚ) : Except DataError Agg :=
  let a' := { a with x := a.x ++ [c.1], y := a.y ++ [c.2] }
  if keysPresent then padMetrics a' else pure a'

/-- The four padding corners, in source order (lines 161-164). -/
def corners (W H : ℚ) : List (ℚ × ℚ) := [(0, 0), (0, H), (W, 0), (W, H)]

/-- Lines 149-170 of `generate`: collect the per-key lists, then pad the four
image corners. -/
def aggregate (W H : ℚ) (data : List MeasurementPoint) : Except DataError Agg :=
  (corners W H).foldlM (padCorner (!data.isEmpty)) (collect data)

/-- The `(frequency, quality)` pairs collected by `_plot_channels` (lines
192-198): every scan of every row whose SSID is not ignored, keyed by
`Frequency / 1000000`, in traversal order. -/
def scanPairs (ignore : List String) (data : List MeasurementPoint) : List (ℚ × ℚ) :=
  data.flatMap (fun row =>
    (row.iwscan.filter (fun s => !(ignore.contains s.essid))).map
      (fun s => (s.frequency / 1000000, s.quality)))

/-- Append one pair into the `defaultdict(list)` of `_plot_channels`: extend
the bucket of an existing frequency key, or create a new key at the end. -/
def addPair : List (ℚ × List ℚ) → ℚ × ℚ → List (ℚ × List ℚ)
  | [], p => [(p.1, [p.2])]
  | (f, l) :: rest, p =>
      if p.1 = f then (f, l ++ [p.2]) :: rest else (f, l) :: addPair rest p

/-- The `channels` dict after the collection loop of `_plot_channels`. -/
def buildChannels (ignore : List String) (data : List MeasurementPoint) :
    List (ℚ × List ℚ) :=
  (scanPairs ignore data).foldl addPair []

/-- Lines 199-200 of `_plot_channels`: replace each bucket by its arithmetic
mean `sum(channels[freq]) / len(channels[freq])`. -/
def channelAggregate (ignore : List String) (data : List MeasurementPoint) :
    List (ℚ × ℚ) :=
  (buildChannels ignore data).map (fun fl => (fl.1, fl.2.sum / (fl.2.length : ℚ)))

/-- Lookup of a frequency key in an association list (dict access). -/
def lookupFreq {α : Type} (d : List (ℚ × α)) (f : ℚ) : Option α :=
  (d.find? (fun e => e.1 = f)).map (·.2)

/-- `matplotlib.colors.Normalize(vmin, vmax, clip=True)` applied to one value:
when `vmin == vmax` matplotlib fills the result with `0`; otherwise the value
is clipped into `[vmin, vmax]` and mapped by `(v - vmin) / (vmax - vmin)`.
(matplotlib raises when `vmin > vmax`; the call site of `_plot` always passes
`vmin = min(seq) ≤ max(seq) = vmax`, so that branch is unreachable here.) -/
def normValue (vmin vmax v : ℚ) : ℚ :=
  if vmin = vmax then 0
  else (min (max v vmin) vmax - vmin) / (vmax - vmin)

/-- The normalization built by `_plot` lines 233-236: `vmin = min(a[key])`,
`vmax = max(a[key])`, `clip=True`; `none` models the `ValueError` Python's
`min`/`max` raise on an empty sequence. -/
def normalizeSeq (l : List ℚ) (v : ℚ) : Option ℚ :=
  match listMin l, listMax l with
  | some m, some M => some (normValue m M v)
  | _, _ => none

/-- `num_x = int(self._image_width / 4)` (line 172): exact for integer pixel
widths, so integer division by 4. -/
def num_x (W : ℕ) : ℕ := W / 4

/-- `num_y = int(num_x / (self._image_width / self._image_height))`
(line 173), with the truncation of `int` on a non-negative value. -/
def num_y (W H : ℕ) : ℕ := ⌊(num_x W : ℚ) / ((W : ℚ) / (H : ℚ))⌋₊

/-- `np.linspace(a, b, n)`: `n` evenly spaced values from `a` to `b`
inclusive. -/
def linspace (a b : ℚ) (n : ℕ) : List ℚ :=
  if n = 1 then [a]
  else (List.range n).map
    (fun i : ℕ => a + (b - a) * (i : ℚ) / (((n - 1 : ℕ) : ℚ)))

/-- `np.meshgrid(x, y)` followed by flattening both coordinate arrays
(lines 176-177): the row-major list of grid points, `y` varying slowest. -/
def meshgridFlat (xs ys : List ℚ) : List (ℚ × ℚ) :=
  ys.flatMap (fun gy => xs.map (fun gx => (gx, gy)))

/-- `z.reshape((rows, cols))` on a flat list: `rows` chunks of `cols`. -/
def chunkRows {α : Type} : ℕ → ℕ → List α → List (List α)
  | 0, _, _ => []
  | r + 1, c, l => l.take c :: chunkRows r c (l.drop c)

/-- Raised by `numpy.linalg.solve` inside `scipy.interpolate.Rbf` when the
interpolation matrix is singular. -/
inductive NumericalError
  | singular
deriving DecidableEq

/-- Squared Euclidean distance between two points. -/
def sqDist (p q : ℚ × ℚ) : ℚ := (p.1 - q.1) ^ 2 + (p.2 - q.2) ^ 2

/-- The interpolation matrix of `Rbf(x, y, d, function='linear')`:
`A i j = φ(r(p i, p j))` where `r` is the Euclidean distance and `φ` the
kernel.  Since the Euclidean distance of rational points is irrational, the
matrix entry is expressed through the squared distance: `g = φ ∘ sqrt`, kept
as a parameter (for the `linear` kernel, `g` is the square root itself).
Every property proved below holds for every `g`. -/
def rbfMatrix (g : ℚ → ℚ) (pts : List (ℚ × ℚ)) :
    Matrix (Fin pts.length) (Fin pts.length) ℚ :=
  Matrix.of fun i j => g (sqDist (pts.get i) (pts.get j))

/-- Fitting `Rbf`: solve `A · w = vals` for the nodal weights.  In exact
arithmetic `numpy.linalg.solve` fails exactly on a singular matrix, i.e. when
`det A = 0`; otherwise the solution is `A⁻¹ · vals`, written through the
adjugate so that the definition stays computable. -/
def rbfFit (g : ℚ → ℚ) (pts : List (ℚ × ℚ)) (vals : List ℚ) :
    Except NumericalError (Fin pts.length → ℚ) :=
  let A := rbfMatrix g pts
  if A.det = 0 then .error .singular
  else .ok (((A.det)⁻¹ • A.adjugate).mulVec (fun i => vals.getD (i : ℕ) 0))

/-- Evaluating a fitted `Rbf` model at a query point: the weighted sum of the
kernel applied to the distances to the nodes. -/
def rbfEval (g : ℚ → ℚ) (pts : List (ℚ × ℚ)) (w : Fin pts.length → ℚ)
    (q : ℚ × ℚ) : ℚ :=
  ∑ i, w i * g (sqDist q (pts.get i))

/-- One sample marker drawn by `_plot` (lines 246-251): position and the
normalized intensity fed to the `RdYlBu_r` colormap by `mapper.to_rgba`. -/
structure Marker where
  x : ℚ
  y : ℚ
  color : Option ℚ
deriving DecidableEq

/-- The marker loop of `_plot` (lines 246-251): `for idx in
range(0, len(a['x']))`, one marker at `(a['x'][idx], a['y'][idx])` colored by
`mapper.to_rgba(a[key][idx])`. -/
def plotMarkers (a : Agg) (k : Metric) : List Marker :=
  (List.range a.x.length).map (fun idx =>
    { x := a.x.getD idx 0
      y := a.y.getD idx 0
      color := normalizeSeq (a.metric k) ((a.metric k).getD idx 0) })

/-- `extent=(0, self._image_width, self._image_height, 0)` of the overlay
`imshow` call (line 240). -/
def renderExtent (W H : ℚ) : ℚ × ℚ × ℚ × ℚ := (0, W, H, 0)

/-- The figure assembled by `_plot` for one metric: the reshaped interpolated
field, its extent, the normalization bounds of the color mapping, and the
sample markers. -/
structure PlotSpec where
  field : List (List ℚ)
  extent : ℚ × ℚ × ℚ × ℚ
  vmin : Option ℚ
  vmax : Option ℚ
  markers : List Marker
deriving DecidableEq

/-- The errors a run of `generate` can raise. -/
inductive RunError
  | data : DataError → RunError
  | notImplemented : RunError
  | numerical : NumericalError → RunError
deriving DecidableEq

/-- `_plot` (lines 219-256) for one metric key: fit the `Rbf` interpolator on
the padded coordinates and values, evaluate it on the flattened grid, reshape
to `(num_y, num_x)`, build the min-max normalization, and draw one marker per
index of `a['x']`. -/
def plot (g : ℚ → ℚ) (W H : ℕ) (a : Agg) (k : Metric) :
    Except RunError PlotSpec :=
  let pts := a.x.zip a.y
  match rbfFit g pts (a.metric k) with
  | .error e => .error (.numerical e)
  | .ok w =>
      let gxy := meshgridFlat (linspace 0 (W : ℚ) (num_x W))
        (linspace 0 (H : ℚ) (num_y W H))
      .ok { field := chunkRows (num_y W H) (num_x W) (gxy.map (rbfEval g pts w))
            extent := renderExtent (W : ℚ) (H : ℚ)
            vmin := listMin (a.metric k)
            vmax := listMax (a.metric k)
            markers := plotMarkers a k }

/-- `_plot_channels` (lines 190-203): compute the per-frequency mean
aggregate, print it, then unconditionally raise `NotImplementedError`.  The
first component is what `print(channels)` shows. -/
def plot_channels (ignore : List String) (data : List MeasurementPoint) :
    List (ℚ × ℚ) × Except RunError Unit :=
  (channelAggregate ignore data, .error .notImplemented)

/-- The per-metric loop of `generate` (lines 178-188), over the metric
catalog in source order. -/
def metricCatalog : List Metric :=
  [.rssi, .quality, .tcp_upload_Mbps, .tcp_download_Mbps, .udp_Mbps, .jitter]

/-- `generate` (lines 148-188): aggregate the dataset and pad the corners,
run `_plot_channels`, then (were it reached) plot every metric of the
catalog.  The result pairs the channel output printed by `_plot_channels`
with either the rendered per-metric figures or the exception that ended the
run. -/
def generate (g : ℚ → ℚ) (layout : List (List ℚ)) (ignore : List String)
    (data : List MeasurementPoint) :
    List (ℚ × ℚ) × Except RunError (List (Metric × PlotSpec)) :=
  let W := image_width layout
  let H := image_height layout
  match aggregate (W : ℚ) (H : ℚ) data with
  | .error e => ([], .error (.data e))
  | .ok a =>
      let pc := plot_channels ignore data
      match pc.2 with
      | .error e => (pc.1, .error e)
      | .ok _ =>
          (pc.1, metricCatalog.mapM (fun k => (plot g W H a k).map (fun s => (k, s))))

/-- The minimum of a list, with a junk default for the empty list. -/
def minD (l : List ℚ) : ℚ := (listMin l).getD 0

/-- A metric list with the four padding values appended. -/
def pad4 (l : List ℚ) : List ℚ := l ++ List.replicate 4 (minD l)

/-- The fully padded accumulator: real points first, then the four corners,
every metric list extended by four copies of its real minimum. -/
def paddedAgg (W H : ℚ) (data : List MeasurementPoint) : Agg :=
  { x := (collect data).x ++ [0, 0, W, W]
    y := (collect data).y ++ [0, H, 0, H]
    rssi := pad4 (collect data).rssi
    quality := pad4 (collect data).quality
    tcp_upload_Mbps := pad4 (collect data).tcp_upload_Mbps
    tcp_download_Mbps := pad4 (collect data).tcp_download_Mbps
    udp_Mbps := pad4 (collect data).udp_Mbps
    jitter := pad4 (collect data).jitter }

/-- Two sample measurement points used as concrete witnesses. -/
def mp1 : MeasurementPoint :=
  ⟨1, 2, -30, 40, 10, 20, 5, 3, [⟨"net1", 2412000000, 50⟩]⟩

/-- A second sample measurement point. -/
def mp2 : MeasurementPoint :=
  ⟨7, 5, -60, 20, 8, 15, 4, 6, [⟨"net2", 2412000000, 70⟩]⟩

/-- The quality scores of all non-excluded scan observations bucketed at
frequency `f` (in MHz), across all points, stated directly as a filter over
the dataset. -/
def qualitiesAt (ignore : List String) (data : List MeasurementPoint)
    (f : ℚ) : List ℚ :=
  data.flatMap (fun row =>
    (row.iwscan.filter (fun s =>
      !(ignore.contains s.essid) && decide (s.frequency / 1000000 = f))).map
        (·.quality))

lemma listMin_ne_nil {l : List ℚ} (h : l ≠ []) : listMin l = some (minD l) := by
  cases l with
  | nil => exact absurd rfl h
  | cons a t => simp [listMin, minD]

lemma listMin_append_self {l : List ℚ} {m : ℚ} (h : listMin l = some m) :
    listMin (l ++ [m]) = some m := by
  cases l with
  | nil => simp [listMin] at h
  | cons a t =>
      simp only [listMin, Option.some.injEq] at h
      simp [listMin, List.foldl_append, h]

lemma appendMin_of_min {l : List ℚ} {m : ℚ} (h : listMin l = some m) :
    appendMin l = .ok (l ++ [m]) := by
  simp [appendMin, pyMin, h, Except.map]

lemma okBind {ε α β : Type} (a : α) (f : α → Except ε β) :
    (Except.ok a : Except ε α) >>= f = f a := rfl

lemma padCorner_of_min (a : Agg) (cx cy : ℚ)
    {m1 m2 m3 m4 m5 m6 : ℚ}
    (h1 : listMin a.rssi = some m1) (h2 : listMin a.quality = some m2)
    (h3 : listMin a.tcp_upload_Mbps = some m3)
    (h4 : listMin a.tcp_download_Mbps = some m4)
    (h5 : listMin a.udp_Mbps = some m5) (h6 : listMin a.jitter = some m6) :
    padCorner true a (cx, cy)
      = .ok ⟨a.x ++ [cx], a.y ++ [cy], a.rssi ++ [m1], a.quality ++ [m2],
             a.tcp_upload_Mbps ++ [m3], a.tcp_download_Mbps ++ [m4],
             a.udp_Mbps ++ [m5], a.jitter ++ [m6]⟩ := by
  simp only [padCorner, if_true, padMetrics,
    appendMin_of_min h1, appendMin_of_min h2, appendMin_of_min h3,
    appendMin_of_min h4, appendMin_of_min h5, appendMin_of_min h6, okBind]
  rfl

/-- On a non-empty dataset, `aggregate` succeeds and produces exactly the
padded accumulator. -/
lemma aggregate_eq_padded (W H : ℚ) (data : List MeasurementPoint)
    (hd : data ≠ []) : aggregate W H data = .ok (paddedAgg W H data) := by
  obtain ⟨d, ds, rfl⟩ := List.exists_cons_of_ne_nil hd
  set c := collect (d :: ds) with hc
  have hne : ∀ k : Metric, c.metric k ≠ [] := by
    intro k; cases k <;> simp [hc, collect, Agg.metric]
  have h1 := listMin_ne_nil (hne .rssi)
  have h2 := listMin_ne_nil (hne .quality)
  have h3 := listMin_ne_nil (hne .tcp_upload_Mbps)
  have h4 := listMin_ne_nil (hne .tcp_download_Mbps)
  have h5 := listMin_ne_nil (hne .udp_Mbps)
  have h6 := listMin_ne_nil (hne .jitter)
  simp only [Agg.metric] at h1 h2 h3 h4 h5 h6
  have hagg : aggregate W H (d :: ds)
      = (corners W H).foldlM (padCorner true) c := by
    simp [aggregate, hc]
  have t1 := padCorner_of_min c 0 0 h1 h2 h3 h4 h5 h6
  have t2 : padCorner true
      (⟨c.x ++ [0], c.y ++ [0], c.rssi ++ [minD c.rssi],
        c.quality ++ [minD c.quality],
        c.tcp_upload_Mbps ++ [minD c.tcp_upload_Mbps],
        c.tcp_download_Mbps ++ [minD c.tcp_download_Mbps],
        c.udp_Mbps ++ [minD c.udp_Mbps], c.jitter ++ [minD c.jitter]⟩ : Agg)
      (0, H)
      = .ok ⟨(c.x ++ [0]) ++ [0], (c.y ++ [0]) ++ [H],
             (c.rssi ++ [minD c.rssi]) ++ [minD c.rssi],
             (c.quality ++ [minD c.quality]) ++ [minD c.quality],
             (c.tcp_upload_Mbps ++ [minD c.tcp_upload_Mbps]) ++ [minD c.tcp_upload_Mbps],
             (c.tcp_download_Mbps ++ [minD c.tcp_download_Mbps]) ++ [minD c.tcp_download_Mbps],
             (c.udp_Mbps ++ [minD c.udp_Mbps]) ++ [minD c.udp_Mbps],
             (c.jitter ++ [minD c.jitter]) ++ [minD c.jitter]⟩ :=
    padCorner_of_min _ 0 H (listMin_append_self h1) (listMin_append_self h2)
      (listMin_append_self h3) (listMin_append_self h4)
      (listMin_append_self h5) (listMin_append_self h6)
  have t3 := padCorner_of_min
      (⟨(c.x ++ [0]) ++ [0], (c.y ++ [0]) ++ [H],
        (c.rssi ++ [minD c.rssi]) ++ [minD c.rssi],
        (c.quality ++ [minD c.quality]) ++ [minD c.quality],
        (c.tcp_upload_Mbps ++ [minD c.tcp_upload_Mbps]) ++ [minD c.tcp_upload_Mbps],
        (c.tcp_download_Mbps ++ [minD c.tcp_download_Mbps]) ++ [minD c.tcp_download_Mbps],
        (c.udp_Mbps ++ [minD c.udp_Mbps]) ++ [minD c.udp_Mbps],
        (c.jitter ++ [minD c.jitter]) ++ [minD c.jitter]⟩ : Agg) W 0
      (listMin_append_self (listMin_append_self h1))
      (listMin_append_self (listMin_append_self h2))
      (listMin_append_self (listMin_append_self h3))
      (listMin_append_self (listMin_append_self h4))
      (listMin_append_self (listMin_append_self h5))
      (listMin_append_self (listMin_append_self h6))
  have t4 := padCorner_of_min
      (⟨((c.x ++ [0]) ++ [0]) ++ [W], ((c.y ++ [0]) ++ [H]) ++ [0],
        ((c.rssi ++ [minD c.rssi]) ++ [minD c.rssi]) ++ [minD c.rssi],
        ((c.quality ++ [minD c.quality]) ++ [minD c.quality]) ++ [minD c.quality],
        ((c.tcp_upload_Mbps ++ [minD c.tcp_upload_Mbps]) ++ [minD c.tcp_upload_Mbps]) ++ [minD c.tcp_upload_Mbps],
        ((c.tcp_download_Mbps ++ [minD c.tcp_download_Mbps]) ++ [minD c.tcp_download_Mbps]) ++ [minD c.tcp_download_Mbps],
        ((c.udp_Mbps ++ [minD c.udp_Mbps]) ++ [minD c.udp_Mbps]) ++ [minD c.udp_Mbps],
        ((c.jitter ++ [minD c.jitter]) ++ [minD c.jitter]) ++ [minD c.jitter]⟩ : Agg) W H
      (listMin_append_self (listMin_append_self (listMin_append_self h1)))
      (listMin_append_self (listMin_append_self (listMin_append_self h2)))
      (listMin_append_self (listMin_append_self (listMin_append_self h3)))
      (listMin_append_self (listMin_append_self (listMin_append_self h4)))
      (listMin_append_self (listMin_append_self (listMin_append_self h5)))
      (listMin_append_self (listMin_append_self (listMin_append_self h6)))
  rw [hagg, show corners W H = [(0, 0), (0, H), (W, 0), (W, H)] from rfl,
    List.foldlM_cons, t1, okBind, List.foldlM_cons, t2, okBind,
    List.foldlM_cons, t3, okBind, List.foldlM_cons, t4, okBind,
    List.foldlM_nil]
  simp only [paddedAgg, pad4, hc, List.replicate, List.append_assoc]
  rfl

/-- On the empty dataset, the metric keys are never created, so the padding
loop appends only the corner coordinates and computes no minimum. -/
lemma aggregate_nil (W H : ℚ) :
    aggregate W H [] = .ok ⟨[0, 0, W, W], [0, H, 0, H], [], [], [], [], [], []⟩ := rfl

lemma collect_metric (data : List MeasurementPoint) (k : Metric) :
    (collect data).metric k = data.map (fun p => p.metric k) := by
  cases k <;> rfl

lemma aggregate_total (W H : ℚ) (data : List MeasurementPoint) :
    ∃ a, aggregate W H data = .ok a := by
  cases data with
  | nil => exact ⟨_, aggregate_nil W H⟩
  | cons d ds => exact ⟨_, aggregate_eq_padded W H (d :: ds) (by simp)⟩

/-- C1: in every run, `generate` aggregates, then `_plot_channels` computes
and prints the per-frequency mean aggregate and raises `NotImplementedError`,
so the per-metric plotting loop is never reached and no per-metric figure is
produced. -/
theorem channels_abort_every_run (g : ℚ → ℚ) (layout : List (List ℚ))
    (ignore : List String) (data : List MeasurementPoint) :
    plot_channels ignore data
      = (channelAggregate ignore data, .error .notImplemented) ∧
    generate g layout ignore data
      = (channelAggregate ignore data, .error .notImplemented) := by
  obtain ⟨a, ha⟩ := aggregate_total (image_width layout : ℚ)
    (image_height layout : ℚ) data
  exact ⟨rfl, by simp [generate, ha, plot_channels]⟩

/-- C2: on a non-empty dataset, aggregation appends exactly four synthetic
points, one per image corner `(0,0)`, `(0,H)`, `(W,0)`, `(W,H)`, and for every
metric each synthetic value equals the minimum of the metric over the real
(pre-padding) points, even though the code recomputes the minimum over the
partially padded list. -/
theorem aggregate_pads_corner_minima (W H : ℚ) (data : List MeasurementPoint)
    (hd : data ≠ []) :
    ∃ a, aggregate W H data = Except.ok a ∧
      a.x = data.map (·.x) ++ [0, 0, W, W] ∧
      a.y = data.map (·.y) ++ [0, H, 0, H] ∧
      ∀ k : Metric, ∃ m, listMin (data.map (fun p => p.metric k)) = some m ∧
        a.metric k = data.map (fun p => p.metric k) ++ List.replicate 4 m := by
  refine ⟨paddedAgg W H data, aggregate_eq_padded W H data hd, rfl, rfl, ?_⟩
  intro k
  have hne : data.map (fun p => p.metric k) ≠ [] := by
    simpa using hd
  refine ⟨minD (data.map (fun p => p.metric k)), listMin_ne_nil hne, ?_⟩
  rw [← collect_metric]
  cases k <;> simp [paddedAgg, pad4, Agg.metric, collect_metric]

/-- Witness for C2 at a concrete two-point dataset. -/
theorem aggregate_pads_corner_minima_witness :
    ([mp1, mp2] : List MeasurementPoint) ≠ [] ∧
    (∃ a, aggregate 10 8 [mp1, mp2] = Except.ok a ∧
      a.x = [mp1, mp2].map (·.x) ++ [0, 0, 10, 10] ∧
      a.y = [mp1, mp2].map (·.y) ++ [0, 8, 0, 8] ∧
      ∀ k : Metric, ∃ m, listMin ([mp1, mp2].map (fun p => p.metric k)) = some m ∧
        a.metric k = [mp1, mp2].map (fun p => p.metric k) ++ List.replicate 4 m) :=
  ⟨by decide, aggregate_pads_corner_minima 10 8 [mp1, mp2] (by decide)⟩

/-- C6 counterexample: on the empty dataset, aggregation does not fail — it
succeeds, padding only the corner coordinates. -/
theorem empty_dataset_aggregation_succeeds :
    aggregate 10 8 []
      = Except.ok ⟨[0, 0, 10, 10], [0, 8, 0, 8], [], [], [], [], [], []⟩ ∧
    ¬ ∃ e : DataError, aggregate 10 8 [] = Except.error e := by
  refine ⟨rfl, ?_⟩
  rintro ⟨e, h⟩
  rw [aggregate_nil] at h
  exact Except.noConfusion h

/-- C6 amended: on an empty dataset the aggregation stage succeeds without
any `DataError`: the metric lists are created lazily and stay absent, so no
minimum is ever computed; only the four corner coordinates are appended. -/
theorem empty_dataset_aggregation_no_error (W H : ℚ) :
    ∃ a, aggregate W H [] = Except.ok a ∧
      a.x = [0, 0, W, W] ∧ a.y = [0, H, 0, H] ∧
      ∀ k : Metric, a.metric k = [] :=
  ⟨_, aggregate_nil W H, rfl, rfl, by intro k; cases k <;> rfl⟩

lemma foldl_min_le_init (h : ℚ) (t : List ℚ) : t.foldl min h ≤ h := by
  induction t generalizing h with
  | nil => exact le_refl h
  | cons a t ih =>
      exact le_trans (ih (min h a)) (min_le_left h a)

lemma init_le_foldl_max (h : ℚ) (t : List ℚ) : h ≤ t.foldl max h := by
  induction t generalizing h with
  | nil => exact le_refl h
  | cons a t ih =>
      exact le_trans (le_max_left h a) (ih (max h a))

lemma listMin_le_listMax {l : List ℚ} {m M : ℚ}
    (hm : listMin l = some m) (hM : listMax l = some M) : m ≤ M := by
  cases l with
  | nil => simp [listMin] at hm
  | cons a t =>
      simp only [listMin, Option.some.injEq] at hm
      simp only [listMax, Option.some.injEq] at hM
      calc m = t.foldl min a := hm.symm
        _ ≤ a := foldl_min_le_init a t
        _ ≤ t.foldl max a := init_le_foldl_max a t
        _ = M := hM

/-- C5 counterexample: on the all-equal sequence `[7, 7]` the normalization
maps a value to `0`, not to the midpoint `0.5`. -/
theorem degenerate_normalization_not_midpoint :
    normalizeSeq [7, 7] 7 = some 0 ∧ normalizeSeq [7, 7] 7 ≠ some (1 / 2) := by
  refine ⟨rfl, ?_⟩
  rw [show normalizeSeq [7, 7] 7 = some 0 from rfl]
  intro h
  exact absurd (Option.some.inj h) (by norm_num)

/-- C5 amended: for any metric value sequence whose minimum equals its
maximum, normalization raises no division error and maps every value to `0`
(matplotlib's `Normalize` fills the result with `0` when `vmin == vmax`). -/
theorem degenerate_normalization_zero (l : List ℚ) (v m M : ℚ)
    (hm : listMin l = some m) (hM : listMax l = some M) (heq : m = M) :
    normalizeSeq l v = some 0 := by
  subst heq
  simp [normalizeSeq, hm, hM, normValue]

/-- Witness for amended C5 at the concrete sequence `[7, 7]`. -/
theorem degenerate_normalization_zero_witness :
    listMin [7, 7] = some 7 ∧ listMax [7, 7] = some 7 ∧ (7 : ℚ) = 7 ∧
    normalizeSeq [7, 7] 3 = some 0 :=
  ⟨by decide, by decide, rfl,
    degenerate_normalization_zero [7, 7] 3 7 7 (by decide) (by decide) rfl⟩

/-- C9: with distinct minimum and maximum, the normalization of `_plot` is
linear min-max scaling: the minimum maps to `0`, the maximum to `1`, every
value maps into `[0, 1]`, and out-of-range values are clipped to the
endpoints. -/
theorem normalization_minmax_linear (l : List ℚ) (m M : ℚ)
    (hm : listMin l = some m) (hM : listMax l = some M) (hne : m ≠ M) :
    normalizeSeq l m = some 0 ∧ normalizeSeq l M = some 1 ∧
    ∀ v, ∃ r, normalizeSeq l v = some r ∧ 0 ≤ r ∧ r ≤ 1 ∧
      (v ≤ m → r = 0) ∧ (M ≤ v → r = 1) := by
  have hlt : m < M := lt_of_le_of_ne (listMin_le_listMax hm hM) hne
  have hsub : (0 : ℚ) < M - m := sub_pos.mpr hlt
  have hv : ∀ v, normalizeSeq l v = some (normValue m M v) := by
    intro v; simp [normalizeSeq, hm, hM]
  have hval : ∀ v, normValue m M v = (min (max v m) M - m) / (M - m) := by
    intro v; simp [normValue, hne]
  refine ⟨?_, ?_, ?_⟩
  · rw [hv, hval]
    rw [max_self, min_eq_left hlt.le]
    simp
  · rw [hv, hval]
    rw [max_eq_left hlt.le, min_self]
    rw [div_self hsub.ne.symm]
  · intro v
    refine ⟨normValue m M v, hv v, ?_, ?_, ?_, ?_⟩
    · rw [hval]
      apply div_nonneg _ hsub.le
      rw [sub_nonneg]
      exact le_min (le_max_right v m) hlt.le
    · rw [hval]
      rw [div_le_one hsub]
      exact sub_le_sub_right (min_le_right _ M) m
    · intro hvm
      rw [hval, max_eq_right hvm, min_eq_left hlt.le]
      simp
    · intro hMv
      rw [hval, max_eq_left (le_trans hlt.le hMv), min_eq_right hMv,
        div_self hsub.ne.symm]

/-- Witness for C9 at the concrete sequence `[3, 9]`. -/
theorem normalization_minmax_linear_witness :
    listMin [3, 9] = some 3 ∧ listMax [3, 9] = some 9 ∧ (3 : ℚ) ≠ 9 ∧
    (normalizeSeq [3, 9] 3 = some 0 ∧ normalizeSeq [3, 9] 9 = some 1 ∧
     ∀ v, ∃ r, normalizeSeq [3, 9] v = some r ∧ 0 ≤ r ∧ r ≤ 1 ∧
       (v ≤ 3 → r = 0) ∧ (9 ≤ v → r = 1)) :=
  ⟨by decide, by decide, by norm_num,
    normalization_minmax_linear [3, 9] 3 9 (by decide) (by decide) (by norm_num)⟩

/-- C4 counterexample: for a background image of 2 pixel rows and 3 pixel
columns, the width used by the code is the pixel width 3, but the height is
1, not the pixel height 2. -/
theorem image_height_off_by_one :
    image_width [[0, 0, 0], [0, 0, 0]] = 3 ∧
    ([[0, 0, 0], [0, 0, 0]] : List (List ℚ)).length = 2 ∧
    image_height [[0, 0, 0], [0, 0, 0]] = 1 ∧ (1 : ℕ) ≠ 2 := by
  exact ⟨rfl, rfl, rfl, by decide⟩

/-- C4 amended: the coordinate-space width used for corner padding, grid and
rendering extent equals the image's pixel width (number of pixel columns of
its first row), but the height equals the number of pixel rows minus one. -/
theorem coordinate_space_dimensions (layout : List (List ℚ))
    (data : List MeasurementPoint) (hl : layout ≠ []) (hd : data ≠ []) :
    image_width layout = (layout.headD []).length ∧
    image_height layout + 1 = layout.length ∧
    renderExtent (image_width layout : ℚ) (image_height layout : ℚ)
      = (0, ((layout.headD []).length : ℚ), ((layout.length - 1 : ℕ) : ℚ), 0) ∧
    ∃ a, aggregate (image_width layout : ℚ) (image_height layout : ℚ) data
        = Except.ok a ∧
      a.x = data.map (·.x)
        ++ [0, 0, (image_width layout : ℚ), (image_width layout : ℚ)] ∧
      a.y = data.map (·.y)
        ++ [0, (image_height layout : ℚ), 0, (image_height layout : ℚ)] := by
  refine ⟨rfl, ?_, rfl, paddedAgg _ _ data,
    aggregate_eq_padded _ _ data hd, rfl, rfl⟩
  have : 0 < layout.length := List.length_pos.mpr hl
  simp only [image_height]
  omega

/-- Witness for amended C4 at a concrete 2-row 3-column image. -/
theorem coordinate_space_dimensions_witness :
    ([[0, 0, 0], [0, 0, 0]] : List (List ℚ)) ≠ [] ∧
    ([mp1] : List MeasurementPoint) ≠ [] ∧
    (image_width [[0, 0, 0], [0, 0, 0]]
        = (([[0, 0, 0], [0, 0, 0]] : List (List ℚ)).headD []).length ∧
     image_height [[0, 0, 0], [0, 0, 0]] + 1
        = ([[0, 0, 0], [0, 0, 0]] : List (List ℚ)).length ∧
     renderExtent (image_width [[0, 0, 0], [0, 0, 0]] : ℚ)
        (image_height [[0, 0, 0], [0, 0, 0]] : ℚ)
      = (0, ((([[0, 0, 0], [0, 0, 0]] : List (List ℚ)).headD []).length : ℚ),
         ((([[0, 0, 0], [0, 0, 0]] : List (List ℚ)).length - 1 : ℕ) : ℚ), 0) ∧
     ∃ a, aggregate (image_width [[0, 0, 0], [0, 0, 0]] : ℚ)
          (image_height [[0, 0, 0], [0, 0, 0]] : ℚ) [mp1] = Except.ok a ∧
       a.x = [mp1].map (·.x)
         ++ [0, 0, (image_width [[0, 0, 0], [0, 0, 0]] : ℚ),
             (image_width [[0, 0, 0], [0, 0, 0]] : ℚ)] ∧
       a.y = [mp1].map (·.y)
         ++ [0, (image_height [[0, 0, 0], [0, 0, 0]] : ℚ), 0,
             (image_height [[0, 0, 0], [0, 0, 0]] : ℚ)]) :=
  ⟨by decide, by decide,
    coordinate_space_dimensions [[0, 0, 0], [0, 0, 0]] [mp1]
      (by decide) (by decide)⟩

/-- C10: if two input points of the interpolator have identical coordinates,
the interpolation matrix has two equal rows (for every kernel), hence is
singular, and fitting fails with the numerical error instead of returning a
weight vector — whatever the two points' values are, in particular when they
differ. -/
theorem rbf_duplicate_points_singular (g : ℚ → ℚ) (pts : List (ℚ × ℚ))
    (vals : List ℚ) (i j : Fin pts.length) (hij : i ≠ j)
    (hpt : pts.get i = pts.get j) :
    rbfFit g pts vals = Except.error NumericalError.singular := by
  have hrow : rbfMatrix g pts i = rbfMatrix g pts j := by
    funext k
    have hpt' : pts[(i : ℕ)] = pts[(j : ℕ)] := hpt
    simp [rbfMatrix, hpt']
  have hdet : (rbfMatrix g pts).det = 0 :=
    Matrix.det_zero_of_row_eq hij hrow
  simp [rbfFit, hdet]

/-- Witness for C10: two points at the identical coordinates `(5, 5)` with
the differing values `1` and `2`. -/
theorem rbf_duplicate_points_singular_witness :
    ((⟨0, by decide⟩ : Fin ([((5 : ℚ), (5 : ℚ)), (5, 5)] : List (ℚ × ℚ)).length)
       ≠ ⟨1, by decide⟩) ∧
    (([((5 : ℚ), (5 : ℚ)), (5, 5)] : List (ℚ × ℚ)).get ⟨0, by decide⟩
       = ([((5 : ℚ), (5 : ℚ)), (5, 5)] : List (ℚ × ℚ)).get ⟨1, by decide⟩) ∧
    rbfFit id [((5 : ℚ), (5 : ℚ)), (5, 5)] [1, 2]
      = Except.error NumericalError.singular :=
  ⟨by decide, rfl,
    rbf_duplicate_points_singular id [((5 : ℚ), (5 : ℚ)), (5, 5)] [1, 2]
      ⟨0, by decide⟩ ⟨1, by decide⟩ (by decide) rfl⟩

lemma linspace_length (a b : ℚ) (n : ℕ) : (linspace a b n).length = n := by
  rcases eq_or_ne n 1 with h | h
  · simp [linspace, h]
  · unfold linspace
    rw [if_neg h, List.length_map, List.length_range]

lemma linspace_get (a b : ℚ) (n i : ℕ) (hn : n ≠ 1) (hi : i < n) :
    (linspace a b n).get? i
      = some (a + (b - a) * (i : ℚ) / (((n - 1 : ℕ) : ℚ))) := by
  unfold linspace
  rw [if_neg hn, List.get?_eq_getElem?, List.getElem?_map,
    List.getElem?_range hi]
  rfl

lemma linspace_facts (b : ℚ) (n : ℕ) (h2 : 2 ≤ n) :
    (∀ i, i < n →
      (linspace 0 b n).get? i = some (b * (i : ℚ) / (((n - 1 : ℕ) : ℚ)))) ∧
    (linspace 0 b n).get? 0 = some 0 ∧
    (linspace 0 b n).get? (n - 1) = some b := by
  have hn : n ≠ 1 := by omega
  have hget : ∀ i, i < n →
      (linspace 0 b n).get? i = some (b * (i : ℚ) / (((n - 1 : ℕ) : ℚ))) := by
    intro i hi
    rw [linspace_get 0 b n i hn hi]
    congr 1
    ring
  refine ⟨hget, ?_, ?_⟩
  · rw [hget 0 (by omega)]
    norm_num
  · rw [hget (n - 1) (by omega)]
    have hnz : (((n - 1 : ℕ) : ℚ)) ≠ 0 := by
      exact_mod_cast Nat.pos_iff_ne_zero.mp (by omega)
    rw [mul_div_assoc, div_self hnz, mul_one]

lemma num_y_eq (W H : ℕ) :
    num_y W H = num_x W * H / W := by
  unfold num_y
  rw [div_div_eq_mul_div,
    show ((num_x W : ℚ) * (H : ℚ)) = (((num_x W * H : ℕ)) : ℚ) by push_cast; ring,
    Nat.floor_div_nat, Nat.floor_natCast]

lemma meshgridFlat_length (xs ys : List ℚ) :
    (meshgridFlat xs ys).length = ys.length * xs.length := by
  induction ys with
  | nil => simp [meshgridFlat]
  | cons y t ih =>
      simp only [meshgridFlat] at ih ⊢
      simp [ih, Nat.succ_mul, Nat.add_comm]

lemma chunkRows_shape {α : Type} (r c : ℕ) (l : List α) (h : l.length = r * c) :
    (chunkRows r c l).length = r ∧
    ∀ row ∈ chunkRows r c l, row.length = c := by
  induction r generalizing l with
  | zero => simp [chunkRows]
  | succ n ih =>
      have hc : c ≤ l.length := by
        rw [h, Nat.succ_mul]
        exact Nat.le_add_left c (n * c)
      have hdrop : (l.drop c).length = n * c := by
        rw [List.length_drop, h, Nat.succ_mul]
        omega
      obtain ⟨ihl, ihr⟩ := ih (l.drop c) hdrop
      refine ⟨by simp [chunkRows, ihl], ?_⟩
      intro row hrow
      rcases List.mem_cons.mp hrow with hfirst | hrest
      · rw [hfirst, List.length_take]
        omega
      · exact ihr row hrest

/-- C7 counterexample: at image width `W = 6` and height `H = 6`, the single
grid column sits at coordinate `0` only — the claimed upper bound `W` is not
part of the column coordinates — and raising `W` from 6 to 12 triples rather
than doubles `num_x`. -/
theorem grid_not_inclusive_at_small_width :
    num_x 6 = 1 ∧ num_y 6 6 = 1 ∧
    linspace 0 (6 : ℚ) (num_x 6) = [0] ∧
    ((6 : ℚ) ∉ linspace 0 (6 : ℚ) (num_x 6)) ∧
    num_x 12 = 3 ∧ num_x 12 ≠ 2 * num_x 6 := by
  refine ⟨rfl, ?_, rfl, by decide, rfl, by decide⟩
  rw [num_y_eq 6 6]
  decide

/-- C7 amended: `num_x = W / 4` (integer division) and
`num_y = num_x / (W / H)` truncated, which equals `num_x * H / W` in integer
division; the column and row coordinate lists have lengths `num_x` and
`num_y` and, whenever the respective count is at least 2, are evenly spaced
from `0` to `W` (resp. `H`) inclusive; the flat evaluation over the meshgrid
reshapes to `num_y` rows of `num_x` entries; and `num_x` scales exactly
proportionally with `W` when `4` divides `W`. -/
theorem grid_resolution_and_shape (W H : ℕ) (hW : 0 < W) (hH : 0 < H) :
    num_x W = W / 4 ∧
    num_y W H = num_x W * H / W ∧
    (linspace 0 (W : ℚ) (num_x W)).length = num_x W ∧
    (linspace 0 (H : ℚ) (num_y W H)).length = num_y W H ∧
    (2 ≤ num_x W →
      (linspace 0 (W : ℚ) (num_x W)).get? 0 = some 0 ∧
      (linspace 0 (W : ℚ) (num_x W)).get? (num_x W - 1) = some (W : ℚ) ∧
      ∀ i, i < num_x W →
        (linspace 0 (W : ℚ) (num_x W)).get? i
          = some ((W : ℚ) * (i : ℚ) / ((num_x W - 1 : ℕ) : ℚ))) ∧
    (2 ≤ num_y W H →
      (linspace 0 (H : ℚ) (num_y W H)).get? 0 = some 0 ∧
      (linspace 0 (H : ℚ) (num_y W H)).get? (num_y W H - 1) = some (H : ℚ) ∧
      ∀ i, i < num_y W H →
        (linspace 0 (H : ℚ) (num_y W H)).get? i
          = some ((H : ℚ) * (i : ℚ) / ((num_y W H - 1 : ℕ) : ℚ))) ∧
    (∀ f : ℚ × ℚ → ℚ,
      (chunkRows (num_y W H) (num_x W)
        ((meshgridFlat (linspace 0 (W : ℚ) (num_x W))
          (linspace 0 (H : ℚ) (num_y W H))).map f)).length = num_y W H ∧
      ∀ row ∈ chunkRows (num_y W H) (num_x W)
        ((meshgridFlat (linspace 0 (W : ℚ) (num_x W))
          (linspace 0 (H : ℚ) (num_y W H))).map f), row.length = num_x W) ∧
    (∀ k : ℕ, 4 ∣ W → num_x (k * W) = k * num_x W) := by
  refine ⟨rfl, num_y_eq W H, linspace_length _ _ _, linspace_length _ _ _,
    ?_, ?_, ?_, ?_⟩
  · intro h2
    obtain ⟨hget, h0, hlast⟩ := linspace_facts (W : ℚ) (num_x W) h2
    exact ⟨h0, hlast, hget⟩
  · intro h2
    obtain ⟨hget, h0, hlast⟩ := linspace_facts (H : ℚ) (num_y W H) h2
    exact ⟨h0, hlast, hget⟩
  · intro f
    apply chunkRows_shape
    rw [List.length_map, meshgridFlat_length, linspace_length, linspace_length]
  · intro k hdvd
    unfold num_x
    exact Nat.mul_div_assoc k hdvd

/-- Witness for amended C7 at `W = 100`, `H = 50`. -/
theorem grid_resolution_and_shape_witness :
    (0 < 100 ∧ 0 < 50) ∧
    (num_x 100 = 100 / 4 ∧
     num_y 100 50 = num_x 100 * 50 / 100 ∧
     (linspace 0 (100 : ℚ) (num_x 100)).length = num_x 100 ∧
     (linspace 0 (50 : ℚ) (num_y 100 50)).length = num_y 100 50 ∧
     (2 ≤ num_x 100 →
       (linspace 0 (100 : ℚ) (num_x 100)).get? 0 = some 0 ∧
       (linspace 0 (100 : ℚ) (num_x 100)).get? (num_x 100 - 1) = some (100 : ℚ) ∧
       ∀ i, i < num_x 100 →
         (linspace 0 (100 : ℚ) (num_x 100)).get? i
           = some ((100 : ℚ) * (i : ℚ) / ((num_x 100 - 1 : ℕ) : ℚ))) ∧
     (2 ≤ num_y 100 50 →
       (linspace 0 (50 : ℚ) (num_y 100 50)).get? 0 = some 0 ∧
       (linspace 0 (50 : ℚ) (num_y 100 50)).get? (num_y 100 50 - 1) = some (50 : ℚ) ∧
       ∀ i, i < num_y 100 50 →
         (linspace 0 (50 : ℚ) (num_y 100 50)).get? i
           = some ((50 : ℚ) * (i : ℚ) / ((num_y 100 50 - 1 : ℕ) : ℚ))) ∧
     (∀ f : ℚ × ℚ → ℚ,
       (chunkRows (num_y 100 50) (num_x 100)
         ((meshgridFlat (linspace 0 (100 : ℚ) (num_x 100))
           (linspace 0 (50 : ℚ) (num_y 100 50))).map f)).length = num_y 100 50 ∧
       ∀ row ∈ chunkRows (num_y 100 50) (num_x 100)
         ((meshgridFlat (linspace 0 (100 : ℚ) (num_x 100))
           (linspace 0 (50 : ℚ) (num_y 100 50))).map f), row.length = num_x 100) ∧
     (∀ k : ℕ, 4 ∣ 100 → num_x (k * 100) = k * num_x 100)) :=
  ⟨⟨by decide, by decide⟩,
    grid_resolution_and_shape 100 50 (by decide) (by decide)⟩

lemma lookupFreq_cons {α : Type} (g : ℚ) (l : α) (rest : List (ℚ × α)) (f : ℚ) :
    lookupFreq ((g, l) :: rest) f = if g = f then some l else lookupFreq rest f := by
  by_cases h : g = f
  · simp [lookupFreq, h]
  · simp [lookupFreq, h]

lemma lookupFreq_nil {α : Type} (f : ℚ) : lookupFreq ([] : List (ℚ × α)) f = none := rfl

lemma lookupFreq_addPair (d : List (ℚ × List ℚ)) (p : ℚ × ℚ) (f : ℚ) :
    lookupFreq (addPair d p) f
      = if p.1 = f then some ((lookupFreq d f).getD [] ++ [p.2])
        else lookupFreq d f := by
  induction d with
  | nil =>
      by_cases h : p.1 = f
      · rw [show addPair [] p = [(p.1, [p.2])] from rfl, lookupFreq_cons,
          if_pos h, if_pos h, lookupFreq_nil]
        rfl
      · rw [show addPair [] p = [(p.1, [p.2])] from rfl, lookupFreq_cons,
          if_neg h, if_neg h, lookupFreq_nil]
  | cons e rest ih =>
      obtain ⟨g, l⟩ := e
      by_cases hpg : p.1 = g
      · rw [show addPair ((g, l) :: rest) p = (g, l ++ [p.2]) :: rest from
          by simp [addPair, hpg], lookupFreq_cons, lookupFreq_cons]
        by_cases hgf : g = f
        · have hpf : p.1 = f := by rw [hpg, hgf]
          rw [if_pos hgf, if_pos hgf, if_pos hpf]
          rfl
        · have hpf : ¬ p.1 = f := by rw [hpg]; exact hgf
          rw [if_neg hgf, if_neg hgf, if_neg hpf]
      · rw [show addPair ((g, l) :: rest) p = (g, l) :: addPair rest p from
          by simp [addPair, hpg], lookupFreq_cons, lookupFreq_cons]
        by_cases hgf : g = f
        · have hpf : ¬ p.1 = f := fun hh => hpg (hh.trans hgf.symm)
          rw [if_pos hgf, if_pos hgf, if_neg hpf]
        · rw [if_neg hgf, if_neg hgf, ih]

lemma lookupFreq_foldl_addPair (pairs : List (ℚ × ℚ))
    (d : List (ℚ × List ℚ)) (f : ℚ) :
    lookupFreq (pairs.foldl addPair d) f
      = if lookupFreq d f = none ∧ (pairs.filter (fun p => p.1 = f)) = []
        then none
        else some ((lookupFreq d f).getD []
          ++ (pairs.filter (fun p => p.1 = f)).map (·.2)) := by
  induction pairs generalizing d with
  | nil =>
      cases h : lookupFreq d f with
      | none => simp [h]
      | some l => simp [h]
  | cons p rest ih =>
      rw [List.foldl_cons, ih (addPair d p), lookupFreq_addPair]
      by_cases hpf : p.1 = f
      · have hfil : (List.filter (fun q => decide (q.1 = f)) (p :: rest))
            = p :: List.filter (fun q => decide (q.1 = f)) rest := by
          simp [List.filter_cons, hpf]
        rw [if_pos hpf, hfil]
        cases h : lookupFreq d f with
        | none => simp [h]
        | some l => simp [h]
      · have hfil : (List.filter (fun q => decide (q.1 = f)) (p :: rest))
            = List.filter (fun q => decide (q.1 = f)) rest := by
          simp [List.filter_cons, hpf]
        rw [if_neg hpf, hfil]

lemma lookupFreq_buildChannels (ignore : List String)
    (data : List MeasurementPoint) (f : ℚ) :
    lookupFreq (buildChannels ignore data) f
      = if ((scanPairs ignore data).filter (fun p => p.1 = f)) = [] then none
        else some (((scanPairs ignore data).filter
            (fun p => p.1 = f)).map (·.2)) := by
  unfold buildChannels
  rw [lookupFreq_foldl_addPair, lookupFreq_nil]
  simp only [eq_self_iff_true, true_and, Option.getD_none, List.nil_append]

lemma filter_map_pair {α : Type} (l : List α) (q : α → Bool)
    (mk1 mk2 : α → ℚ) (f : ℚ) :
    (((l.filter q).map (fun s => (mk1 s, mk2 s))).filter
        (fun p => p.1 = f)).map (·.2)
      = (l.filter (fun s => q s && decide (mk1 s = f))).map mk2 := by
  induction l with
  | nil => rfl
  | cons s t ih =>
      by_cases hq : q s
      · by_cases hf : mk1 s = f
        · simp [hq, hf, ih]
        · simp [hq, hf, ih]
      · simp [hq, ih]

lemma filter_scanPairs_eq (ignore : List String)
    (data : List MeasurementPoint) (f : ℚ) :
    ((scanPairs ignore data).filter (fun p => p.1 = f)).map (·.2)
      = qualitiesAt ignore data f := by
  unfold scanPairs qualitiesAt
  induction data with
  | nil => rfl
  | cons row rest ih =>
      simp only [List.flatMap_cons, List.filter_append, List.map_append, ih]
      rw [filter_map_pair]

lemma lookupFreq_map_mean (l : List (ℚ × List ℚ)) (f : ℚ) :
    lookupFreq (l.map (fun fl => (fl.1, fl.2.sum / (fl.2.length : ℚ)))) f
      = (lookupFreq l f).map (fun b => b.sum / (b.length : ℚ)) := by
  induction l with
  | nil => rfl
  | cons e rest ih =>
      obtain ⟨g, b⟩ := e
      by_cases h : g = f
      · simp only [List.map_cons, lookupFreq_cons, if_pos h]
        rfl
      · simp only [List.map_cons, lookupFreq_cons, if_neg h, ih]

lemma lookupFreq_channelAggregate (ignore : List String)
    (data : List MeasurementPoint) (f : ℚ) :
    lookupFreq (channelAggregate ignore data) f
      = (lookupFreq (buildChannels ignore data) f).map
          (fun b => b.sum / (b.length : ℚ)) := by
  unfold channelAggregate
  rw [lookupFreq_map_mean]

/-- C8: the channel aggregate maps every observed frequency bucket to the
arithmetic mean of the quality scores of all non-excluded scan observations
at that frequency, across all points; concretely, qualities 50 and 70 at
2412000000 Hz average to 60, and excluding either SSID leaves the other's
quality. -/
theorem channel_aggregate_is_mean :
    (∀ (ignore : List String) (data : List MeasurementPoint) (f : ℚ),
      lookupFreq (channelAggregate ignore data) f
        = if qualitiesAt ignore data f = [] then none
          else some ((qualitiesAt ignore data f).sum
              / ((qualitiesAt ignore data f).length : ℚ))) ∧
    channelAggregate [] [mp1, mp2] = [(2412, 60)] ∧
    channelAggregate ["net1"] [mp1, mp2] = [(2412, 70)] ∧
    channelAggregate ["net2"] [mp1, mp2] = [(2412, 50)] := by
  have hsp0 : scanPairs [] [mp1, mp2] = [(2412, 50), (2412, 70)] := by
    norm_num [scanPairs, mp1, mp2]
  have hs21 : (("net2" : String) = "net1") = False := eq_false (by decide)
  have hs12 : (("net1" : String) = "net2") = False := eq_false (by decide)
  have hsp1 : scanPairs ["net1"] [mp1, mp2] = [(2412, 70)] := by
    norm_num [scanPairs, mp1, mp2, hs21]
  have hsp2 : scanPairs ["net2"] [mp1, mp2] = [(2412, 50)] := by
    norm_num [scanPairs, mp1, mp2, hs12]
  refine ⟨?_, ?_, ?_, ?_⟩
  · intro ignore data f
    rw [lookupFreq_channelAggregate, lookupFreq_buildChannels]
    by_cases h : ((scanPairs ignore data).filter (fun p => p.1 = f)) = []
    · rw [if_pos h, if_pos]
      · rfl
      · rw [← filter_scanPairs_eq, h]; rfl
    · rw [if_neg h, if_neg]
      · rw [show Option.map (fun b => b.sum / ((b.length : ℕ) : ℚ))
            (some (((scanPairs ignore data).filter
              (fun p => p.1 = f)).map (·.2)))
           = some ((((scanPairs ignore data).filter
              (fun p => p.1 = f)).map (·.2)).sum
              / (((((scanPairs ignore data).filter
                (fun p => p.1 = f)).map (·.2)).length : ℕ) : ℚ)) from rfl,
          filter_scanPairs_eq]
      · rw [← filter_scanPairs_eq]
        intro hc
        exact h (List.map_eq_nil_iff.mp hc)
  · unfold channelAggregate buildChannels
    rw [hsp0]
    norm_num [addPair]
  · unfold channelAggregate buildChannels
    rw [hsp1]
    norm_num [addPair]
  · unfold channelAggregate buildChannels
    rw [hsp2]
    norm_num [addPair]

lemma paddedAgg_metric (W H : ℚ) (data : List MeasurementPoint) (k : Metric) :
    (paddedAgg W H data).metric k
      = data.map (fun p => p.metric k)
        ++ List.replicate 4 (minD (data.map (fun p => p.metric k))) := by
  cases k <;> rfl

lemma plotMarkers_get (a : Agg) (k : Metric) (i : ℕ) (hi : i < a.x.length) :
    (plotMarkers a k).get? i = some
      { x := a.x.getD i 0, y := a.y.getD i 0,
        color := normalizeSeq (a.metric k) ((a.metric k).getD i 0) } := by
  unfold plotMarkers
  rw [List.get?_eq_getElem?, List.getElem?_map, List.getElem?_range hi]
  rfl

/-- C3 counterexample: a dataset with a single real point produces five
markers — one per padded point, including the four corner padding points —
not one. -/
theorem marker_count_includes_padding :
    ∃ a, aggregate 8 8 [mp1] = Except.ok a ∧
      (plotMarkers a Metric.rssi).length = 5 ∧
      ([mp1] : List MeasurementPoint).length = 1 ∧ (5 : ℕ) ≠ 1 := by
  refine ⟨paddedAgg 8 8 [mp1], aggregate_eq_padded 8 8 [mp1] (by decide),
    ?_, rfl, by decide⟩
  simp [plotMarkers, paddedAgg, collect]

/-- C3 amended: `_plot` draws one marker per point of the padded sequence —
the real points and the four synthetic corner points alike.  Each marker sits
at its point's own coordinates and its color comes from applying the
normalization to that point's own stored value (for a real point its measured
value, for a padding point the padded minimum), not to the interpolated
field. -/
theorem markers_one_per_padded_point (W H : ℚ) (data : List MeasurementPoint)
    (k : Metric) (hd : data ≠ []) :
    ∃ a, aggregate W H data = Except.ok a ∧
      (plotMarkers a k).length = data.length + 4 ∧
      ∃ m, listMin (data.map (fun p => p.metric k)) = some m ∧
        (∀ i, (hi : i < data.length) →
          (plotMarkers a k).get? i = some
            { x := (data.get ⟨i, hi⟩).x
              y := (data.get ⟨i, hi⟩).y
              color := normalizeSeq (a.metric k) ((data.get ⟨i, hi⟩).metric k) }) ∧
        (∀ j, (hj : j < 4) →
          (plotMarkers a k).get? (data.length + j) = some
            { x := [0, 0, W, W].get ⟨j, hj⟩
              y := [0, H, 0, H].get ⟨j, hj⟩
              color := normalizeSeq (a.metric k) m }) := by
  refine ⟨paddedAgg W H data, aggregate_eq_padded W H data hd, ?_, ?_⟩
  · simp [plotMarkers, paddedAgg, collect]
  · have hmap : data.map (fun p => p.metric k) ≠ [] := by simpa using hd
    refine ⟨minD (data.map (fun p => p.metric k)), listMin_ne_nil hmap, ?_, ?_⟩
    · intro i hi
      have hx : (paddedAgg W H data).x.length = data.length + 4 := by
        simp [paddedAgg, collect]
      have hi4 : i < (paddedAgg W H data).x.length := by omega
      rw [plotMarkers_get _ _ _ hi4]
      have hxi : (paddedAgg W H data).x.getD i 0 = (data.get ⟨i, hi⟩).x := by
        show ((data.map (·.x)) ++ [0, 0, W, W]).getD i 0 = _
        rw [List.getD_append _ _ _ _ (by simpa using hi),
          List.getD_eq_getElem _ _ (by simpa using hi)]
        simp
      have hyi : (paddedAgg W H data).y.getD i 0 = (data.get ⟨i, hi⟩).y := by
        show ((data.map (·.y)) ++ [0, H, 0, H]).getD i 0 = _
        rw [List.getD_append _ _ _ _ (by simpa using hi),
          List.getD_eq_getElem _ _ (by simpa using hi)]
        simp
      have hvi : ((paddedAgg W H data).metric k).getD i 0
          = (data.get ⟨i, hi⟩).metric k := by
        rw [paddedAgg_metric]
        rw [List.getD_append _ _ _ _ (by simpa using hi),
          List.getD_eq_getElem _ _ (by simpa using hi)]
        simp
      rw [hxi, hyi, hvi]
    · intro j hj
      have hx : (paddedAgg W H data).x.length = data.length + 4 := by
        simp [paddedAgg, collect]
      have hj4 : data.length + j < (paddedAgg W H data).x.length := by omega
      rw [plotMarkers_get _ _ _ hj4]
      have hxi : (paddedAgg W H data).x.getD (data.length + j) 0
          = [0, 0, W, W].get ⟨j, hj⟩ := by
        show ((data.map (·.x)) ++ [0, 0, W, W]).getD (data.length + j) 0 = _
        rw [List.getD_append_right _ _ _ _ (by simp)]
        rw [List.getD_eq_getElem _ _ (by simp; omega)]
        congr 1
        simp
      have hyi : (paddedAgg W H data).y.getD (data.length + j) 0
          = [0, H, 0, H].get ⟨j, hj⟩ := by
        show ((data.map (·.y)) ++ [0, H, 0, H]).getD (data.length + j) 0 = _
        rw [List.getD_append_right _ _ _ _ (by simp)]
        rw [List.getD_eq_getElem _ _ (by simp; omega)]
        congr 1
        simp
      have hvi : ((paddedAgg W H data).metric k).getD (data.length + j) 0
          = minD (data.map (fun p => p.metric k)) := by
        rw [paddedAgg_metric]
        rw [List.getD_append_right _ _ _ _ (by simp)]
        rw [List.getD_eq_getElem _ _ (by simp; omega)]
        rw [List.getElem_replicate]
      rw [hxi, hyi, hvi]

/-- Witness for amended C3 at a concrete two-point dataset. -/
theorem markers_one_per_padded_point_witness :
    ([mp1, mp2] : List MeasurementPoint) ≠ [] ∧
    (∃ a, aggregate 10 8 [mp1, mp2] = Except.ok a ∧
      (plotMarkers a Metric.quality).length = [mp1, mp2].length + 4 ∧
      ∃ m, listMin ([mp1, mp2].map (fun p => p.metric Metric.quality)) = some m ∧
        (∀ i, (hi : i < ([mp1, mp2] : List MeasurementPoint).length) →
          (plotMarkers a Metric.quality).get? i = some
            { x := ([mp1, mp2].get ⟨i, hi⟩).x
              y := ([mp1, mp2].get ⟨i, hi⟩).y
              color := normalizeSeq (a.metric Metric.quality)
                (([mp1, mp2].get ⟨i, hi⟩).metric Metric.quality) }) ∧
        (∀ j, (hj : j < 4) →
          (plotMarkers a Metric.quality).get?
              (([mp1, mp2] : List MeasurementPoint).length + j) = some
            { x := [0, 0, 10, 10].get ⟨j, hj⟩
              y := [0, 8, 0, 8].get ⟨j, hj⟩
              color := normalizeSeq (a.metric Metric.quality) m })) :=
  ⟨by decide, markers_one_per_padded_point 10 8 [mp1, mp2] Metric.quality (by decide)⟩

end WifiSurvey
